import Mathlib

/-!
Verification development for `litestar/security/jwt/token.py`: a shallow
embedding of the `Token` dataclass (construction validation, `decode`,
`encode`) together with its helper `_normalize_datetime`, and theorems about
the specified properties.

Modelling conventions:
* A Python `datetime` is modelled by `PyDateTime`: the local wall-clock
  reading in integer microseconds since the epoch of that reading
  (`localUs`), plus an optional UTC offset in whole seconds (`tz`); `tz =
  none` models a naive datetime.  Real `tzinfo` offsets are whole seconds.
* `datetime.timestamp()` is modelled at microsecond precision by
  `timestampUs`; a naive value is interpreted with the system's local
  offset `localOff`, exactly as CPython does for naive datetimes.
* Python dicts carrying JWT payloads are association lists
  `List (String × PyVal)`; insertion order is the list order.  (Python set
  iteration order for the extra-claims loop is unspecified; the model uses
  payload order, and no theorem depends on the order of several extras.)
* Exceptions are modelled by `Except PyErr`.
-/

def usPerSec : Int := 1000000

/-- Model of a Python `datetime`: local reading in microseconds plus an
optional UTC offset in whole seconds (`none` = naive). -/
structure PyDateTime where
  localUs : Int
  tz : Option Int
deriving DecidableEq, Repr

/-- Model of `datetime.timestamp()` (in microseconds): the absolute POSIX
time of the value; a naive value is interpreted at the system local offset
`localOff` (seconds). -/
def timestampUs (localOff : Int) (v : PyDateTime) : Int :=
  v.localUs - usPerSec * (v.tz.getD localOff)

/-- Truncate microseconds to a whole second (floor, as `replace(microsecond=0)`
does on the non-negative `microsecond` field). -/
def truncUs (us : Int) : Int :=
  usPerSec * (us / usPerSec)

/-- Model of `value.replace(microsecond=0)`. -/
def replaceMicrosecondZero (v : PyDateTime) : PyDateTime :=
  { v with localUs := truncUs v.localUs }

/-- Model of `value.astimezone(timezone.utc)`: same absolute time,
represented with a zero UTC offset. -/
def astimezone_utc (localOff : Int) (v : PyDateTime) : PyDateTime :=
  ⟨timestampUs localOff v, some 0⟩

/-- Model of `_normalize_datetime` exactly as written in the source: on the
aware branch the source evaluates `value.astimezone(timezone.utc)` but never
assigns the result, so the branch has no effect; the function returns
`value.replace(microsecond=0)` for every input. -/
def normalize_datetime (v : PyDateTime) : PyDateTime :=
  replaceMicrosecondZero v

/-- Modelled from the spec: the normalization helper as the spec describes it
("takes a timestamp, converts to UTC if it carries timezone info, truncates
to whole seconds"), for comparison with the source's `normalize_datetime`. -/
def normalize_datetime_spec (localOff : Int) (v : PyDateTime) : PyDateTime :=
  match v.tz with
  | some _ => replaceMicrosecondZero (astimezone_utc localOff v)
  | none => replaceMicrosecondZero v

/-- Model of the Python values stored in a JWT payload dict: strings,
integers (epoch seconds on the wire), `datetime` objects (after the decode
conversion step), and nested dicts (the extras mapping). -/
inductive PyVal where
  | str (s : String)
  | num (n : Int)
  | dt (d : PyDateTime)
  | obj (entries : List (String × PyVal))

/-- The `Token` dataclass: field order as in the source. -/
structure Token where
  exp : PyDateTime
  sub : String
  iat : PyDateTime
  iss : Option String
  aud : Option String
  jti : Option String
  extras : List (String × PyVal)

/-- The exception kinds that can arise inside `Token.decode` / construction.
`jwtInvalidToken` covers `jwt.DecodeError` and every other
`jwt.exceptions.InvalidTokenError`; `validationError` is
`msgspec.ValidationError`, `typeError` a built-in `TypeError` — the latter
two are not in `decode`'s `except` tuple. -/
inductive PyErr where
  | improperlyConfigured (msg : String)
  | notAuthorized (msg : String)
  | keyError (k : String)
  | jwtInvalidToken (msg : String)
  | validationError (msg : String)
  | typeError (msg : String)
deriving DecidableEq, Repr

/-- Model of `Token.__post_init__`: the `sub` length check, then the `exp`
check (`normalized exp timestamp >= normalized now timestamp` keeps the
token), then the `iat` check (`normalized iat timestamp <= normalized now
timestamp`).  The source reads `datetime.now(timezone.utc)` separately for
the two checks; the model passes one reading `nowUs` (absolute microseconds,
offset zero), which no theorem's truth depends on.  The `isinstance`
guards are always true in the typed model. -/
def Token.post_init (sub : String) (exp iat : PyDateTime) (nowUs localOff : Int) :
    Except PyErr (PyDateTime × PyDateTime) :=
  if sub.length < 1 then
    .error (.improperlyConfigured "sub must be a string with a length greater than 0")
  else
    let expN := normalize_datetime exp
    let nowN := normalize_datetime ⟨nowUs, some 0⟩
    if timestampUs localOff expN ≥ timestampUs localOff nowN then
      let iatN := normalize_datetime iat
      if timestampUs localOff iatN ≤ timestampUs localOff nowN then
        .ok (expN, iatN)
      else
        .error (.improperlyConfigured "iat must be a current or past time")
    else
      .error (.improperlyConfigured "exp value must be a datetime in the future")

/-- Dataclass construction `Token(...)` followed by `__post_init__`: on
success every field is stored as supplied except `exp` and `iat`, which are
replaced by their normalized values. -/
def Token.mk_validated (exp : PyDateTime) (sub : String) (iat : PyDateTime)
    (iss aud jti : Option String) (extras : List (String × PyVal))
    (nowUs localOff : Int) : Except PyErr Token :=
  match Token.post_init sub exp iat nowUs localOff with
  | .error e => .error e
  | .ok (expN, iatN) => .ok ⟨expN, sub, iatN, iss, aud, jti, extras⟩

/-- The dataclass field names of `Token`, as used by the extra-claims split
in `decode` (`payload.keys() - {f.name for f in dataclasses.fields(cls)}`). -/
def fieldNames : List String := ["exp", "sub", "iat", "iss", "aud", "jti", "extras"]

/-- Dict key lookup (first occurrence, as in a Python dict where keys are
unique anyway). -/
def lookupA (k : String) : List (String × PyVal) → Option PyVal
  | [] => none
  | (k', v) :: rest => if k' = k then some v else lookupA k rest

/-- Removal of a key from a payload dict (used only in theorem statements). -/
def removeA (k : String) (l : List (String × PyVal)) : List (String × PyVal) :=
  l.filter (fun p => p.1 != k)

/-- A signed compact token, abstracting the wire string: the payload claims
it carries, the key it was signed with, and the algorithm used. -/
structure EncodedToken where
  payload : List (String × PyVal)
  key : String
  alg : String

/-- Python truthiness of the optional audience sequence: `bool(audience)` is
false for `None` and for an empty sequence. -/
def audTruthy : Option (List String) → Bool
  | none => false
  | some l => !l.isEmpty

/-- The verification layer requires a present `exp`/`iat` claim to be an
integer (delivered as numeric epoch seconds). -/
def claimIntOk (k : String) (payload : List (String × PyVal)) : Bool :=
  match lookupA k payload with
  | some (PyVal.num _) => true
  | none => true
  | some _ => false

/-- Modelled from the spec: the external signing/verification primitive's
`verify` (spec section 6, `jwt.decode` in the source), which "raises a
decode/verification error kind on any signature, structural, issuer, or
audience failure".  Signature validity is modelled as key equality and the
structural check as algorithm membership plus integer `exp`/`iat` claims;
audience membership is checked only under `verifyAud`, issuer membership
only when an issuer set is given.  (Per spec section 4.2, staleness is
enforced by the re-validation step, not modelled here.) -/
def jwt_decode (tok : EncodedToken) (key : String) (algorithms : List String)
    (issuer : Option (List String)) (audience : Option (List String)) (verifyAud : Bool) :
    Except PyErr (List (String × PyVal)) :=
  if tok.key != key then
    .error (.jwtInvalidToken "Signature verification failed")
  else if !(algorithms.contains tok.alg) then
    .error (.jwtInvalidToken "The specified alg value is not allowed")
  else if !(claimIntOk "exp" tok.payload) then
    .error (.jwtInvalidToken "Expiration Time claim (exp) must be an integer")
  else if !(claimIntOk "iat" tok.payload) then
    .error (.jwtInvalidToken "Issued At claim (iat) must be an integer")
  else
    let audFail : Option PyErr :=
      if verifyAud then
        match audience with
        | some auds =>
          match lookupA "aud" tok.payload with
          | some (PyVal.str a) =>
            if auds.contains a then none else some (.jwtInvalidToken "Audience doesn't match")
          | some _ => some (.jwtInvalidToken "Invalid claim format in token")
          | none => some (.jwtInvalidToken "Token is missing the aud claim")
        | none =>
          match lookupA "aud" tok.payload with
          | some _ => some (.jwtInvalidToken "Invalid audience")
          | none => none
      else none
    match audFail with
    | some e => .error e
    | none =>
      match issuer with
      | none => .ok tok.payload
      | some issList =>
        match lookupA "iss" tok.payload with
        | some (PyVal.str s) =>
          if issList.contains s then .ok tok.payload
          else .error (.jwtInvalidToken "Invalid issuer")
        | some _ => .error (.jwtInvalidToken "Invalid issuer")
        | none => .error (.jwtInvalidToken "Token is missing the iss claim")

/-- Reading an optional string field in `msgspec.convert`: absent gives
`None`, a string gives the string, anything else is a validation failure. -/
def optStrField (fname : String) : Option PyVal → Except PyErr (Option String)
  | none => .ok none
  | some (PyVal.str s) => .ok (some s)
  | some _ => .error (.validationError ("Expected str for field " ++ fname))

/-- Modelled collaborator step `msgspec.convert(payload, cls, strict=False)`
on the mutated payload, followed by the dataclass construction running
`__post_init__`: reads `sub` (required), the optional string fields, and the
extras mapping (already extracted, passed as `extrasRes`); a missing or
non-string `sub` raises `msgspec.ValidationError`, and `__post_init__`
exceptions propagate unchanged (the source's `except` tuple lists
`ImproperlyConfiguredException`, which is how they surface). -/
def convertAndValidate (payload : List (String × PyVal)) (expDt iatDt : PyDateTime)
    (extrasRes : Except PyErr (List (String × PyVal))) (nowUs localOff : Int) :
    Except PyErr Token :=
  match lookupA "sub" payload with
  | none => .error (.validationError "Object missing required field sub")
  | some (PyVal.str s) =>
    match optStrField "iss" (lookupA "iss" payload) with
    | .error e => .error e
    | .ok iss =>
      match optStrField "aud" (lookupA "aud" payload) with
      | .error e => .error e
      | .ok aud =>
        match optStrField "jti" (lookupA "jti" payload) with
        | .error e => .error e
        | .ok jti =>
          match extrasRes with
          | .error e => .error e
          | .ok extras =>
            match Token.post_init s expDt iatDt nowUs localOff with
            | .error e => .error e
            | .ok (expN, iatN) => .ok ⟨expN, s, iatN, iss, aud, jti, extras⟩
  | some _ => .error (.validationError "Expected str for field sub")

/-- The issuer argument passed to the verification primitive:
`list(issuer) if issuer else None` (an absent or empty issuer sequence
becomes `None`). -/
def issuerArg : Option (List String) → Option (List String)
  | some l => if l.isEmpty then none else some l
  | none => none

/-- The body of the `try` block of `Token.decode`: verification, the
`exp`/`iat` epoch-to-datetime conversions (a missing key raises `KeyError`),
the extra-claims split into the extras mapping, then conversion and
re-validation. -/
def decodeTry (tok : EncodedToken) (secret algorithm : String)
    (audience issuer : Option (List String)) (nowUs localOff : Int) :
    Except PyErr Token :=
  match jwt_decode tok secret [algorithm] (issuerArg issuer)
      audience (audTruthy audience) with
  | .error e => .error e
  | .ok payload =>
    match lookupA "exp" payload with
    | none => .error (.keyError "exp")
    | some (PyVal.num e) =>
      match lookupA "iat" payload with
      | none => .error (.keyError "iat")
      | some (PyVal.num i) =>
        let expDt : PyDateTime := ⟨usPerSec * e, some 0⟩
        let iatDt : PyDateTime := ⟨usPerSec * i, some 0⟩
        let extraEntries := payload.filter (fun p => !(fieldNames.contains p.1))
        match lookupA "extras" payload with
        | some (PyVal.obj l) =>
          convertAndValidate payload expDt iatDt (.ok (l ++ extraEntries)) nowUs localOff
        | none =>
          convertAndValidate payload expDt iatDt (.ok extraEntries) nowUs localOff
        | some _ =>
          if extraEntries.isEmpty then
            convertAndValidate payload expDt iatDt
              (.error (.validationError "Expected dict for field extras")) nowUs localOff
          else
            .error (.typeError "object does not support item assignment")
      | some _ => .error (.typeError "an integer is required")
    | some _ => .error (.typeError "an integer is required")

/-- Model of `Token.decode`: run the `try` body, then the `except` clause
re-raises exactly `KeyError`, `jwt.DecodeError` / `jwt.exceptions.InvalidTokenError`
and `ImproperlyConfiguredException` as `NotAuthorizedException("Invalid
token")`; every other exception kind propagates out of `decode` unchanged. -/
def Token.decode (encoded_token : EncodedToken) (secret algorithm : String)
    (audience issuer : Option (List String)) (nowUs localOff : Int) :
    Except PyErr Token :=
  match decodeTry encoded_token secret algorithm audience issuer nowUs localOff with
  | .ok t => .ok t
  | .error (.keyError _) => .error (.notAuthorized "Invalid token")
  | .error (.jwtInvalidToken _) => .error (.notAuthorized "Invalid token")
  | .error (.improperlyConfigured _) => .error (.notAuthorized "Invalid token")
  | .error e => .error e

/-- PyJWT's conversion of a `datetime` claim value for `exp`/`iat` inside
`jwt.encode`: `timegm(value.utctimetuple())`, i.e. the value read as UTC
(naive treated as already-UTC), whole seconds, sub-second part dropped. -/
def datetimeToEpoch (d : PyDateTime) : Int :=
  (d.localUs - usPerSec * (d.tz.getD 0)) / usPerSec

/-- The payload handed to `jwt.encode` by `Token.encode`:
`{k: v for k, v in asdict(self).items() if v is not None}` in dataclass
field order, with the `exp`/`iat` datetimes turned into epoch seconds by the
signing primitive.  `exp`, `sub`, `iat` and the extras dict are never
`None`, so only the three optional string fields can be omitted; the extras
mapping stays a single nested `"extras"` entry, exactly as `asdict`
produces it. -/
def Token.encode_payload (t : Token) : List (String × PyVal) :=
  ("exp", PyVal.num (datetimeToEpoch t.exp)) ::
    ("sub", PyVal.str t.sub) ::
      ("iat", PyVal.num (datetimeToEpoch t.iat)) ::
        ((match t.iss with | some s => [("iss", PyVal.str s)] | none => []) ++
          (match t.aud with | some s => [("aud", PyVal.str s)] | none => []) ++
            (match t.jti with | some s => [("jti", PyVal.str s)] | none => []) ++
              [("extras", PyVal.obj t.extras)])

/-- Model of `Token.encode`: sign the serialized payload with the given key
and algorithm (the signing primitive is abstracted by `EncodedToken`). -/
def Token.encode (t : Token) (secret algorithm : String) : EncodedToken :=
  ⟨t.encode_payload, secret, algorithm⟩

/-! ## Helper lemmas -/

theorem length_not_lt_one_of_ne_empty {s : String} (h : s ≠ "") : ¬ s.length < 1 := by
  have h0 : s.length ≠ 0 := fun h0 => h (String.ext (List.length_eq_zero.mp h0))
  omega

theorem usPerSec_pos : (0 : Int) < usPerSec := by decide

/-- Normalizing a datetime floors its absolute timestamp to a whole second:
the truncation of the local reading commutes with subtracting the
whole-second offset. -/
theorem timestampUs_normalize (off : Int) (v : PyDateTime) :
    timestampUs off (normalize_datetime v) = truncUs (timestampUs off v) := by
  show usPerSec * (v.localUs / usPerSec) - usPerSec * (v.tz.getD off)
      = usPerSec * ((v.localUs - usPerSec * (v.tz.getD off)) / usPerSec)
  have h : v.localUs - usPerSec * v.tz.getD off
      = v.localUs + (-(v.tz.getD off)) * usPerSec := by ring
  rw [h, Int.add_mul_ediv_right _ _ (by decide : (usPerSec : Int) ≠ 0)]
  ring

theorem truncUs_mono {a b : Int} (h : a ≤ b) : truncUs a ≤ truncUs b := by
  unfold truncUs
  exact mul_le_mul_of_nonneg_left (Int.ediv_le_ediv usPerSec_pos h) (by decide)

theorem truncUs_of_emod_eq_zero {a : Int} (h : a % usPerSec = 0) : truncUs a = a :=
  Int.mul_ediv_cancel' (Int.dvd_of_emod_eq_zero h)

/-- For a timezone-aware value the timestamp does not depend on the system
local offset. -/
theorem timestampUs_aware (off off' : Int) {v : PyDateTime} (h : v.tz.isSome) :
    timestampUs off v = timestampUs off' v := by
  obtain ⟨o, ho⟩ := Option.isSome_iff_exists.mp h
  simp [timestampUs, ho]

theorem encode_payload_lookup_exp (t : Token) :
    lookupA "exp" t.encode_payload = some (PyVal.num (datetimeToEpoch t.exp)) := rfl

theorem encode_payload_lookup_sub (t : Token) :
    lookupA "sub" t.encode_payload = some (PyVal.str t.sub) := rfl

theorem encode_payload_lookup_iat (t : Token) :
    lookupA "iat" t.encode_payload = some (PyVal.num (datetimeToEpoch t.iat)) := rfl

theorem encode_payload_lookup_iss (t : Token) :
    lookupA "iss" t.encode_payload = t.iss.map PyVal.str := by
  obtain ⟨e, sub, i, iss, aud, jti, extras⟩ := t
  cases iss <;> cases aud <;> cases jti <;> rfl

theorem encode_payload_lookup_aud (t : Token) :
    lookupA "aud" t.encode_payload = t.aud.map PyVal.str := by
  obtain ⟨e, sub, i, iss, aud, jti, extras⟩ := t
  cases iss <;> cases aud <;> cases jti <;> rfl

theorem encode_payload_lookup_jti (t : Token) :
    lookupA "jti" t.encode_payload = t.jti.map PyVal.str := by
  obtain ⟨e, sub, i, iss, aud, jti, extras⟩ := t
  cases iss <;> cases aud <;> cases jti <;> rfl

theorem encode_payload_lookup_extras (t : Token) :
    lookupA "extras" t.encode_payload = some (PyVal.obj t.extras) := by
  obtain ⟨e, sub, i, iss, aud, jti, extras⟩ := t
  cases iss <;> cases aud <;> cases jti <;> rfl

/-- Every key `encode` puts on the wire is one of the dataclass field
names, so the extra-claims filter on an encoded payload is empty. -/
theorem encode_payload_filter_nonfield (t : Token) :
    t.encode_payload.filter (fun p => !(fieldNames.contains p.1)) = [] := by
  obtain ⟨e, sub, i, iss, aud, jti, extras⟩ := t
  cases iss <;> cases aud <;> cases jti <;> rfl

theorem optStrField_map_str (fname : String) (o : Option String) :
    optStrField fname (o.map PyVal.str) = .ok o := by
  cases o <;> rfl

theorem lookupA_cons (k k' : String) (v : PyVal) (tl : List (String × PyVal)) :
    lookupA k ((k', v) :: tl) = if k' = k then some v else lookupA k tl := rfl

theorem removeA_cons (k' : String) (p : String × PyVal) (tl : List (String × PyVal)) :
    removeA k' (p :: tl) = if p.1 = k' then removeA k' tl else p :: removeA k' tl := by
  by_cases h : p.1 = k' <;> simp [removeA, List.filter_cons, h]

theorem lookupA_removeA_self (k : String) (l : List (String × PyVal)) :
    lookupA k (removeA k l) = none := by
  induction l with
  | nil => rfl
  | cons hd tl ih =>
    obtain ⟨k1, v⟩ := hd
    rw [removeA_cons]
    by_cases h : k1 = k
    · rw [if_pos h]
      exact ih
    · rw [if_neg h, lookupA_cons, if_neg h]
      exact ih

theorem lookupA_removeA_ne (k k' : String) (hk : k ≠ k') (l : List (String × PyVal)) :
    lookupA k (removeA k' l) = lookupA k l := by
  induction l with
  | nil => rfl
  | cons hd tl ih =>
    obtain ⟨k1, v⟩ := hd
    rw [removeA_cons, lookupA_cons]
    by_cases h : k1 = k'
    · have hne : ¬ k1 = k := fun hh => hk (hh ▸ h)
      rw [if_pos h, if_neg hne]
      exact ih
    · rw [if_neg h, lookupA_cons, ih]

/-- Removing the `"aud"` entry does not change the extra-claims filter:
`"aud"` is one of the dataclass field names, so the filter drops it anyway. -/
theorem filter_nonfield_removeA_aud (l : List (String × PyVal)) :
    (removeA "aud" l).filter (fun p => !(fieldNames.contains p.1))
      = l.filter (fun p => !(fieldNames.contains p.1)) := by
  unfold removeA
  rw [List.filter_filter]
  apply List.filter_congr
  intro p _
  by_cases h : p.1 = "aud"
  · have h1 : fieldNames.contains p.1 = true := by rw [h]; rfl
    show ((!(fieldNames.contains p.1)) && (p.1 != "aud")) = (!(fieldNames.contains p.1))
    rw [h1]
    rfl
  · show ((!(fieldNames.contains p.1)) && (p.1 != "aud")) = (!(fieldNames.contains p.1))
    have h2 : (p.1 != "aud") = true := bne_iff_ne.mpr h
    rw [h2, Bool.and_true]

theorem claimIntOk_removeA (k : String) (hk : k ≠ "aud") (p : List (String × PyVal)) :
    claimIntOk k (removeA "aud" p) = claimIntOk k p := by
  unfold claimIntOk
  rw [lookupA_removeA_ne k "aud" hk]

theorem if_false_true {α : Sort u} (x y : α) : (if false = true then x else y) = y := rfl

/-- With audience verification off, verifying a payload with its `"aud"`
entry removed gives the same outcome, up to returning the smaller payload. -/
theorem jwt_decode_removeA_aud_map (p : List (String × PyVal)) (K A key : String)
    (algs : List String) (issuer audience : Option (List String)) :
    jwt_decode ⟨removeA "aud" p, K, A⟩ key algs issuer audience false
      = Except.map (fun _ => removeA "aud" p)
          (jwt_decode ⟨p, K, A⟩ key algs issuer audience false) := by
  unfold jwt_decode
  dsimp only
  rw [claimIntOk_removeA "exp" (by decide), claimIntOk_removeA "iat" (by decide),
      lookupA_removeA_ne "iss" "aud" (by decide), if_false_true, if_false_true]
  split_ifs with h1 h2 h3 h4
  · rfl
  · rfl
  · rfl
  · rfl
  · cases issuer with
    | none => rfl
    | some issList =>
      cases lookupA "iss" p with
      | none => rfl
      | some v =>
        cases v with
        | str s2 =>
          dsimp only
          split_ifs with h5
          · rfl
          · rfl
        | num n => rfl
        | dt d => rfl
        | obj l2 => rfl

theorem jwt_decode_ok_payload {tok : EncodedToken} {key : String} {algs : List String}
    {issuer audience : Option (List String)} {vA : Bool} {q : List (String × PyVal)}
    (h : jwt_decode tok key algs issuer audience vA = .ok q) : q = tok.payload := by
  unfold jwt_decode at h
  split_ifs at h
  all_goals
    repeat
      first
      | exact Except.noConfusion h
      | exact (Except.ok.inj h).symm
      | split at h
      | dsimp only at h

/-- The conversion and re-validation step treats a present string `"aud"`
claim purely as data: removing it changes nothing except the `aud` field of
a successfully converted token. -/
theorem convertAndValidate_removeA_aud (payload : List (String × PyVal))
    (expDt iatDt : PyDateTime) (extrasRes : Except PyErr (List (String × PyVal)))
    (nowUs localOff : Int) (s : String)
    (h : lookupA "aud" payload = some (PyVal.str s)) :
    convertAndValidate payload expDt iatDt extrasRes nowUs localOff
      = Except.map (fun u : Token => { u with aud := some s })
          (convertAndValidate (removeA "aud" payload) expDt iatDt extrasRes nowUs localOff) := by
  unfold convertAndValidate
  rw [lookupA_removeA_ne "sub" "aud" (by decide), lookupA_removeA_ne "iss" "aud" (by decide),
      lookupA_removeA_ne "jti" "aud" (by decide), lookupA_removeA_self, h]
  cases lookupA "sub" payload with
  | none => rfl
  | some v =>
    cases v with
    | num n => rfl
    | dt d => rfl
    | obj l2 => rfl
    | str s2 =>
      dsimp only
      cases optStrField "iss" (lookupA "iss" payload) with
      | error e => rfl
      | ok iss =>
        dsimp only
        cases optStrField "jti" (lookupA "jti" payload) with
        | error e => rfl
        | ok jti =>
          dsimp only
          cases extrasRes with
          | error e => rfl
          | ok extras =>
            dsimp only
            cases Token.post_init s2 expDt iatDt nowUs localOff with
            | error e => rfl
            | ok pr =>
              obtain ⟨e1, i1⟩ := pr
              rfl

/-! ## Claim theorems -/

/-- C1: evaluation at the failing input.  A token signed with the correct
secret and algorithm whose payload carries integer `exp` and `iat` claims
but no `sub` claim passes verification, and then `msgspec.convert` raises a
`ValidationError` for the missing required field; that error kind is not in
`decode`'s `except` tuple, so it escapes `decode` instead of being re-raised
as `NotAuthorizedException("Invalid token")`, contradicting the claim that
every failure surfaces as exactly that one error kind. -/
theorem claim_C1_missing_sub_error_escapes :
    Token.decode ⟨[("exp", PyVal.num 2000000000), ("iat", PyVal.num 1000000000)],
        "secret", "HS256"⟩ "secret" "HS256" none none 0 0
      = .error (.validationError "Object missing required field sub") ∧
    PyErr.validationError "Object missing required field sub"
      ≠ PyErr.notAuthorized "Invalid token" :=
  ⟨rfl, by decide⟩

/-- C2 counterexample: `now` is 0.999999 s and `expiresAt` 0.5 s after the
epoch (both UTC-aware); after normalization both truncate to second 0, so
the normalized `expiresAt` equals the normalized `now` (it is even strictly
before `now` in absolute time), yet construction succeeds because the
source's check uses `>=` — the claim predicts a `ConfigurationError` for
the equal case. -/
theorem claim_C2_counterexample :
    normalize_datetime ⟨500000, some 0⟩ = normalize_datetime ⟨999999, some 0⟩ ∧
    Token.mk_validated ⟨500000, some 0⟩ "user" ⟨0, some 0⟩ none none none [] 999999 0
      = .ok ⟨⟨0, some 0⟩, "user", ⟨0, some 0⟩, none, none, none, []⟩ :=
  ⟨rfl, rfl⟩

/-- C2 amended: for a non-empty subject, construction fails with the
expiry `ConfigurationError` exactly when the normalized `expiresAt` is
strictly BEFORE the normalized `now`; a normalized `expiresAt` equal to the
normalized `now` passes the expiry check (the source compares with `>=`,
not `>`). -/
theorem claim_C2_amended (sub : String) (exp iat : PyDateTime)
    (iss aud jti : Option String) (extras : List (String × PyVal))
    (nowUs localOff : Int) (hsub : sub ≠ "") :
    (Token.mk_validated exp sub iat iss aud jti extras nowUs localOff
        = .error (.improperlyConfigured "exp value must be a datetime in the future"))
      ↔ timestampUs localOff (normalize_datetime exp)
          < timestampUs localOff (normalize_datetime ⟨nowUs, some 0⟩) := by
  have hlen := length_not_lt_one_of_ne_empty hsub
  simp only [Token.mk_validated, Token.post_init]
  rw [if_neg hlen]
  split_ifs <;> simp_all

/-- C2 amended, witness at a concrete input. -/
theorem claim_C2_amended_witness :
    (("user" : String) ≠ "") ∧
    ((Token.mk_validated ⟨0, some 0⟩ "user" ⟨0, some 0⟩ none none none [] 5000000 0
        = .error (.improperlyConfigured "exp value must be a datetime in the future"))
      ↔ timestampUs 0 (normalize_datetime ⟨0, some 0⟩)
          < timestampUs 0 (normalize_datetime ⟨5000000, some 0⟩)) :=
  ⟨by decide, claim_C2_amended "user" ⟨0, some 0⟩ ⟨0, some 0⟩ none none none [] 5000000 0
    (by decide)⟩

/-- C3 counterexample: decoding a valid signed payload that carries the
unknown claim `role = "admin"` puts it into `extras` (as the claim says),
but the payload produced by a subsequent `encode` has NO top-level `"role"`
key — the extras are not merged at top level, refuting the claim's
"reappears as the same top-level claim". -/
theorem claim_C3_counterexample :
    Token.decode ⟨[("exp", PyVal.num 1700003600), ("iat", PyVal.num 1700000000),
        ("sub", PyVal.str "u"), ("role", PyVal.str "admin")], "k", "HS256"⟩
        "k" "HS256" none none 1700000500123456 0
      = .ok ⟨⟨1700003600000000, some 0⟩, "u", ⟨1700000000000000, some 0⟩,
          none, none, none, [("role", PyVal.str "admin")]⟩ ∧
    lookupA "role" (Token.encode_payload ⟨⟨1700003600000000, some 0⟩, "u",
        ⟨1700000000000000, some 0⟩, none, none, none, [("role", PyVal.str "admin")]⟩) = none :=
  ⟨rfl, rfl⟩

/-- C3 amended: `encode` serializes the named non-`None` fields plus ONE
top-level `"extras"` claim holding the extras mapping verbatim; an unknown
claim (any key that is not a dataclass field name) never reappears as a
top-level claim of the encoded payload — it is preserved nested inside the
`"extras"` claim. -/
theorem claim_C3_amended (t : Token) (k : String)
    (hk : fieldNames.contains k = false) :
    lookupA "extras" t.encode_payload = some (PyVal.obj t.extras) ∧
    lookupA k t.encode_payload = none := by
  refine ⟨encode_payload_lookup_extras t, ?_⟩
  simp [fieldNames, List.contains] at hk
  obtain ⟨hx1, hx2, hx3, hx4, hx5, hx6, hx7⟩ := hk
  obtain ⟨e, sub, i, iss, aud, jti, extras⟩ := t
  cases iss <;> cases aud <;> cases jti <;>
    simp [Token.encode_payload, lookupA, Ne.symm hx1, Ne.symm hx2, Ne.symm hx3,
      Ne.symm hx4, Ne.symm hx5, Ne.symm hx6, Ne.symm hx7]

/-- C3 amended, witness: the decoded token of the counterexample scenario,
with its unknown claim `role`. -/
theorem claim_C3_amended_witness :
    fieldNames.contains "role" = false ∧
    (lookupA "extras" (Token.encode_payload ⟨⟨1700003600000000, some 0⟩, "u",
        ⟨1700000000000000, some 0⟩, none, none, none, [("role", PyVal.str "admin")]⟩)
        = some (PyVal.obj [("role", PyVal.str "admin")]) ∧
      lookupA "role" (Token.encode_payload ⟨⟨1700003600000000, some 0⟩, "u",
        ⟨1700000000000000, some 0⟩, none, none, none, [("role", PyVal.str "admin")]⟩) = none) :=
  ⟨rfl, claim_C3_amended ⟨⟨1700003600000000, some 0⟩, "u", ⟨1700000000000000, some 0⟩,
      none, none, none, [("role", PyVal.str "admin")]⟩ "role" rfl⟩

/-- C4: round-trip.  For any validly constructed token (non-empty subject,
aware normalized `exp`/`iat`), decoding its encoding with the same secret
and algorithm succeeds while the expiry is still in the future, and the
result agrees with the original on every field — `exp`/`iat` as the same
absolute timestamps (the decoded copies are the UTC representations), and
`sub`/`iss`/`aud`/`jti`/`extras` literally. -/
theorem claim_C4_roundtrip (t : Token) (secret algorithm : String) (nowUs localOff : Int)
    (hsub : t.sub ≠ "")
    (hexpA : t.exp.tz.isSome) (hiatA : t.iat.tz.isSome)
    (hexpM : t.exp.localUs % usPerSec = 0) (hiatM : t.iat.localUs % usPerSec = 0)
    (hfresh : nowUs < timestampUs localOff t.exp)
    (hpast : timestampUs localOff t.iat ≤ nowUs) :
    ∃ t' : Token,
      Token.decode (Token.encode t secret algorithm) secret algorithm none none nowUs localOff
          = .ok t' ∧
      timestampUs localOff t'.exp = timestampUs localOff t.exp ∧
      t'.sub = t.sub ∧
      timestampUs localOff t'.iat = timestampUs localOff t.iat ∧
      t'.iss = t.iss ∧ t'.aud = t.aud ∧ t'.jti = t.jti ∧ t'.extras = t.extras := by
  have hlen := length_not_lt_one_of_ne_empty hsub
  obtain ⟨oe, hoe⟩ := Option.isSome_iff_exists.mp hexpA
  obtain ⟨oi, hoi⟩ := Option.isSome_iff_exists.mp hiatA
  have hE : usPerSec * datetimeToEpoch t.exp = timestampUs localOff t.exp := by
    unfold datetimeToEpoch timestampUs
    rw [hoe]
    simp only [Option.getD_some]
    exact Int.mul_ediv_cancel'
      (dvd_sub (Int.dvd_of_emod_eq_zero hexpM) (dvd_mul_right _ _))
  have hI : usPerSec * datetimeToEpoch t.iat = timestampUs localOff t.iat := by
    unfold datetimeToEpoch timestampUs
    rw [hoi]
    simp only [Option.getD_some]
    exact Int.mul_ediv_cancel'
      (dvd_sub (Int.dvd_of_emod_eq_zero hiatM) (dvd_mul_right _ _))
  have hEmod : (usPerSec * datetimeToEpoch t.exp) % usPerSec = 0 := Int.mul_emod_right _ _
  have hImod : (usPerSec * datetimeToEpoch t.iat) % usPerSec = 0 := Int.mul_emod_right _ _
  have htsE : timestampUs localOff (⟨usPerSec * datetimeToEpoch t.exp, some 0⟩ : PyDateTime)
      = timestampUs localOff t.exp := by
    simp [timestampUs, hE]
  have htsI : timestampUs localOff (⟨usPerSec * datetimeToEpoch t.iat, some 0⟩ : PyDateTime)
      = timestampUs localOff t.iat := by
    simp [timestampUs, hI]
  have htsN : timestampUs localOff (⟨nowUs, some 0⟩ : PyDateTime) = nowUs := by
    simp [timestampUs]
  have hnormE : normalize_datetime ⟨usPerSec * datetimeToEpoch t.exp, some 0⟩
      = ⟨usPerSec * datetimeToEpoch t.exp, some 0⟩ := by
    show (⟨truncUs (usPerSec * datetimeToEpoch t.exp), some 0⟩ : PyDateTime)
        = ⟨usPerSec * datetimeToEpoch t.exp, some 0⟩
    rw [truncUs_of_emod_eq_zero hEmod]
  have hnormI : normalize_datetime ⟨usPerSec * datetimeToEpoch t.iat, some 0⟩
      = ⟨usPerSec * datetimeToEpoch t.iat, some 0⟩ := by
    show (⟨truncUs (usPerSec * datetimeToEpoch t.iat), some 0⟩ : PyDateTime)
        = ⟨usPerSec * datetimeToEpoch t.iat, some 0⟩
    rw [truncUs_of_emod_eq_zero hImod]
  have hcond1 : timestampUs localOff (normalize_datetime ⟨usPerSec * datetimeToEpoch t.exp, some 0⟩)
      ≥ timestampUs localOff (normalize_datetime ⟨nowUs, some 0⟩) := by
    rw [timestampUs_normalize, timestampUs_normalize, htsN, htsE]
    exact truncUs_mono (le_of_lt hfresh)
  have hcond2 : timestampUs localOff (normalize_datetime ⟨usPerSec * datetimeToEpoch t.iat, some 0⟩)
      ≤ timestampUs localOff (normalize_datetime ⟨nowUs, some 0⟩) := by
    rw [timestampUs_normalize, timestampUs_normalize, htsN, htsI]
    exact truncUs_mono hpast
  have hpi : Token.post_init t.sub ⟨usPerSec * datetimeToEpoch t.exp, some 0⟩
      ⟨usPerSec * datetimeToEpoch t.iat, some 0⟩ nowUs localOff
      = .ok (⟨usPerSec * datetimeToEpoch t.exp, some 0⟩,
          ⟨usPerSec * datetimeToEpoch t.iat, some 0⟩) := by
    unfold Token.post_init
    rw [if_neg hlen, if_pos hcond1, if_pos hcond2, hnormE, hnormI]
  have hjwt : jwt_decode (Token.encode t secret algorithm) secret [algorithm] none none false
      = .ok t.encode_payload := by
    unfold jwt_decode Token.encode claimIntOk
    simp [encode_payload_lookup_exp, encode_payload_lookup_iat]
  refine ⟨⟨⟨usPerSec * datetimeToEpoch t.exp, some 0⟩, t.sub,
      ⟨usPerSec * datetimeToEpoch t.iat, some 0⟩, t.iss, t.aud, t.jti, t.extras⟩,
      ?_, htsE, rfl, htsI, rfl, rfl, rfl, rfl⟩
  unfold Token.decode decodeTry
  simp only [audTruthy, issuerArg, hjwt, encode_payload_lookup_exp, encode_payload_lookup_iat,
    encode_payload_filter_nonfield, encode_payload_lookup_extras, List.append_nil,
    convertAndValidate, encode_payload_lookup_sub, encode_payload_lookup_iss,
    encode_payload_lookup_aud, encode_payload_lookup_jti, optStrField_map_str, hpi]

/-- C4 round-trip, witness at a concrete token. -/
theorem claim_C4_roundtrip_witness :
    ((⟨⟨1700003600000000, some 0⟩, "sub1", ⟨1700000000000000, some 0⟩, some "iss1",
        some "aud1", some "jti1", [("k", PyVal.num 5)]⟩ : Token).sub ≠ "") ∧
    (∃ t' : Token,
      Token.decode (Token.encode ⟨⟨1700003600000000, some 0⟩, "sub1", ⟨1700000000000000, some 0⟩,
          some "iss1", some "aud1", some "jti1", [("k", PyVal.num 5)]⟩ "sec" "HS256")
          "sec" "HS256" none none 1700000500123456 0
        = .ok t' ∧
      timestampUs 0 t'.exp
        = timestampUs 0 (⟨⟨1700003600000000, some 0⟩, "sub1", ⟨1700000000000000, some 0⟩,
            some "iss1", some "aud1", some "jti1", [("k", PyVal.num 5)]⟩ : Token).exp ∧
      t'.sub = "sub1" ∧
      timestampUs 0 t'.iat
        = timestampUs 0 (⟨⟨1700003600000000, some 0⟩, "sub1", ⟨1700000000000000, some 0⟩,
            some "iss1", some "aud1", some "jti1", [("k", PyVal.num 5)]⟩ : Token).iat ∧
      t'.iss = some "iss1" ∧ t'.aud = some "aud1" ∧ t'.jti = some "jti1" ∧
      t'.extras = [("k", PyVal.num 5)]) :=
  ⟨by decide, claim_C4_roundtrip ⟨⟨1700003600000000, some 0⟩, "sub1", ⟨1700000000000000, some 0⟩,
      some "iss1", some "aud1", some "jti1", [("k", PyVal.num 5)]⟩ "sec" "HS256"
      1700000500123456 0 (by decide) (by decide) (by decide) (by decide) (by decide)
      (by decide) (by decide)⟩

/-- C5: evaluation at the failing input.  The normalization helper does
truncate sub-seconds (12:00:00.999+01:00 and 12:00:00.001+01:00 both map to
12:00:00+01:00), but a timezone-aware input does NOT come out expressed in
UTC: the source evaluates `value.astimezone(timezone.utc)` without using the
result, so the returned value keeps its original +3600 s offset instead of
the zero offset of the UTC representation. -/
theorem claim_C5_normalize_keeps_offset :
    normalize_datetime ⟨43200999000, some 3600⟩ = ⟨43200000000, some 3600⟩ ∧
    normalize_datetime ⟨43200001000, some 3600⟩ = ⟨43200000000, some 3600⟩ ∧
    (normalize_datetime ⟨43200999000, some 3600⟩).tz
      ≠ (astimezone_utc 0 ⟨43200999000, some 3600⟩).tz ∧
    normalize_datetime ⟨43200999000, some 3600⟩
      ≠ normalize_datetime_spec 0 ⟨43200999000, some 3600⟩ :=
  ⟨rfl, rfl, by decide, by decide⟩

/-- C7: for a non-empty subject, an `expiresAt` strictly after `now` and an
`issuedAt` at or before `now` (absolute time), construction succeeds and
every supplied field is stored unchanged except `exp` and `iat`, which are
replaced by their normalized values. -/
theorem claim_C7_valid_construction (exp iat : PyDateTime) (sub : String)
    (iss aud jti : Option String) (extras : List (String × PyVal))
    (nowUs localOff : Int) (hsub : sub ≠ "")
    (hexp : nowUs < timestampUs localOff exp)
    (hiat : timestampUs localOff iat ≤ nowUs) :
    Token.mk_validated exp sub iat iss aud jti extras nowUs localOff
      = .ok ⟨normalize_datetime exp, sub, normalize_datetime iat, iss, aud, jti, extras⟩ := by
  have hlen := length_not_lt_one_of_ne_empty hsub
  have hts_now : timestampUs localOff (⟨nowUs, some 0⟩ : PyDateTime) = nowUs := by
    simp [timestampUs]
  have h1 : timestampUs localOff (normalize_datetime ⟨nowUs, some 0⟩)
      ≤ timestampUs localOff (normalize_datetime exp) := by
    rw [timestampUs_normalize, timestampUs_normalize, hts_now]
    exact truncUs_mono (le_of_lt hexp)
  have h2 : timestampUs localOff (normalize_datetime iat)
      ≤ timestampUs localOff (normalize_datetime ⟨nowUs, some 0⟩) := by
    rw [timestampUs_normalize, timestampUs_normalize, hts_now]
    exact truncUs_mono hiat
  simp only [Token.mk_validated, Token.post_init]
  rw [if_neg hlen, if_pos h1, if_pos h2]

/-- C7, witness at a concrete input. -/
theorem claim_C7_valid_construction_witness :
    (("user" : String) ≠ "") ∧
    ((5000000 : Int) < timestampUs 0 ⟨10000000, some 0⟩) ∧
    (timestampUs 0 ⟨0, some 0⟩ ≤ (5000000 : Int)) ∧
    Token.mk_validated ⟨10000000, some 0⟩ "user" ⟨0, some 0⟩ (some "i") (some "a") (some "j")
        [("x", PyVal.num 1)] 5000000 0
      = .ok ⟨normalize_datetime ⟨10000000, some 0⟩, "user", normalize_datetime ⟨0, some 0⟩,
          some "i", some "a", some "j", [("x", PyVal.num 1)]⟩ :=
  ⟨by decide, by decide, by decide,
    claim_C7_valid_construction ⟨10000000, some 0⟩ ⟨0, some 0⟩ "user" (some "i") (some "a")
      (some "j") [("x", PyVal.num 1)] 5000000 0 (by decide) (by decide) (by decide)⟩

/-- C8: for a non-empty subject and an `expiresAt` passing the expiry
check, construction fails with the issued-at `ConfigurationError` exactly
when the normalized `issuedAt` is strictly after the normalized `now`, and
succeeds when it is at or before it. -/
theorem claim_C8_iat_check (exp iat : PyDateTime) (sub : String)
    (iss aud jti : Option String) (extras : List (String × PyVal))
    (nowUs localOff : Int) (hsub : sub ≠ "")
    (hexp : timestampUs localOff (normalize_datetime ⟨nowUs, some 0⟩)
        ≤ timestampUs localOff (normalize_datetime exp)) :
    ((Token.mk_validated exp sub iat iss aud jti extras nowUs localOff
        = .error (.improperlyConfigured "iat must be a current or past time"))
      ↔ timestampUs localOff (normalize_datetime ⟨nowUs, some 0⟩)
          < timestampUs localOff (normalize_datetime iat)) ∧
    (timestampUs localOff (normalize_datetime iat)
        ≤ timestampUs localOff (normalize_datetime ⟨nowUs, some 0⟩)
      → Token.mk_validated exp sub iat iss aud jti extras nowUs localOff
          = .ok ⟨normalize_datetime exp, sub, normalize_datetime iat, iss, aud, jti, extras⟩) := by
  have hlen := length_not_lt_one_of_ne_empty hsub
  simp only [Token.mk_validated, Token.post_init]
  rw [if_neg hlen, if_pos hexp]
  split_ifs <;> simp_all

/-- C8, witness at a concrete input. -/
theorem claim_C8_iat_check_witness :
    (("user" : String) ≠ "") ∧
    (timestampUs 0 (normalize_datetime ⟨5000000, some 0⟩)
      ≤ timestampUs 0 (normalize_datetime ⟨10000000, some 0⟩)) ∧
    (((Token.mk_validated ⟨10000000, some 0⟩ "user" ⟨0, some 0⟩ none none none [] 5000000 0
        = .error (.improperlyConfigured "iat must be a current or past time"))
      ↔ timestampUs 0 (normalize_datetime ⟨5000000, some 0⟩)
          < timestampUs 0 (normalize_datetime ⟨0, some 0⟩)) ∧
    (timestampUs 0 (normalize_datetime ⟨0, some 0⟩)
        ≤ timestampUs 0 (normalize_datetime ⟨5000000, some 0⟩)
      → Token.mk_validated ⟨10000000, some 0⟩ "user" ⟨0, some 0⟩ none none none [] 5000000 0
          = .ok ⟨normalize_datetime ⟨10000000, some 0⟩, "user", normalize_datetime ⟨0, some 0⟩,
              none, none, none, []⟩)) :=
  ⟨by decide, by decide,
    claim_C8_iat_check ⟨10000000, some 0⟩ ⟨0, some 0⟩ "user" none none none [] 5000000 0
      (by decide) (by decide)⟩

/-- C9 (implicit): for timezone-aware `exp`/`iat`, the construction checks
decide purely from the absolute POSIX timestamps — construction succeeds
exactly when the second-truncated absolute timestamp of `exp` is at least
that of `now` and the second-truncated absolute timestamp of `iat` is at
most that of `now`, independently of the timezone representation of the
inputs (and of whether normalization changed it). -/
theorem claim_C9_absolute_decision (exp iat : PyDateTime) (sub : String)
    (iss aud jti : Option String) (extras : List (String × PyVal))
    (nowUs localOff : Int) (hsub : sub ≠ "")
    (hexpA : exp.tz.isSome) (hiatA : iat.tz.isSome) :
    (∃ t, Token.mk_validated exp sub iat iss aud jti extras nowUs localOff = .ok t)
      ↔ (truncUs nowUs ≤ truncUs (timestampUs 0 exp)
          ∧ truncUs (timestampUs 0 iat) ≤ truncUs nowUs) := by
  have hlen := length_not_lt_one_of_ne_empty hsub
  have hts_now : timestampUs localOff (⟨nowUs, some 0⟩ : PyDateTime) = nowUs := by
    simp [timestampUs]
  have he : timestampUs localOff (normalize_datetime exp) = truncUs (timestampUs 0 exp) := by
    rw [timestampUs_normalize, timestampUs_aware localOff 0 hexpA]
  have hi : timestampUs localOff (normalize_datetime iat) = truncUs (timestampUs 0 iat) := by
    rw [timestampUs_normalize, timestampUs_aware localOff 0 hiatA]
  have hn : timestampUs localOff (normalize_datetime ⟨nowUs, some 0⟩) = truncUs nowUs := by
    rw [timestampUs_normalize, hts_now]
  simp only [Token.mk_validated, Token.post_init]
  rw [if_neg hlen]
  simp only [he, hi, hn]
  split_ifs <;> simp_all

/-- C9, witness at a concrete input. -/
theorem claim_C9_absolute_decision_witness :
    (("user" : String) ≠ "") ∧
    ((⟨10000000, some 3600⟩ : PyDateTime).tz.isSome) ∧
    ((⟨0, some 0⟩ : PyDateTime).tz.isSome) ∧
    ((∃ t, Token.mk_validated ⟨10000000, some 3600⟩ "user" ⟨0, some 0⟩ none none none []
          5000000 0 = .ok t)
      ↔ (truncUs 5000000 ≤ truncUs (timestampUs 0 ⟨10000000, some 3600⟩)
          ∧ truncUs (timestampUs 0 ⟨0, some 0⟩) ≤ truncUs 5000000)) :=
  ⟨by decide, by decide, by decide,
    claim_C9_absolute_decision ⟨10000000, some 3600⟩ ⟨0, some 0⟩ "user" none none none []
      5000000 0 (by decide) (by decide) (by decide)⟩

/-- C10 (implicit): the payload handed to the signing primitive by `encode`
always contains the `"extras"` key, holding the extras mapping (possibly the
empty object) — only `None`-valued fields are omitted and the extras dict is
never `None`. -/
theorem claim_C10_extras_always_on_wire (t : Token) :
    lookupA "extras" t.encode_payload = some (PyVal.obj t.extras) :=
  encode_payload_lookup_extras t

/-- Removing a string `"aud"` entry from the payload changes the outcome of
the `try` body only by the recorded `aud` field, when audience verification
is skipped. -/
theorem decodeTry_removeA_aud (tok : EncodedToken) (secret algorithm : String)
    (audience issuer : Option (List String)) (nowUs localOff : Int) (s : String)
    (haud : lookupA "aud" tok.payload = some (PyVal.str s))
    (hskip : audTruthy audience = false) :
    decodeTry tok secret algorithm audience issuer nowUs localOff
      = Except.map (fun u : Token => { u with aud := some s })
          (decodeTry ⟨removeA "aud" tok.payload, tok.key, tok.alg⟩ secret algorithm
            audience issuer nowUs localOff) := by
  obtain ⟨p, K, A⟩ := tok
  dsimp only at haud ⊢
  unfold decodeTry
  rw [hskip]
  rw [jwt_decode_removeA_aud_map]
  cases hJ : jwt_decode ⟨p, K, A⟩ secret [algorithm] (issuerArg issuer) audience false with
  | error e => rfl
  | ok q =>
    have hq : q = p := jwt_decode_ok_payload hJ
    subst hq
    dsimp only [Except.map]
    rw [lookupA_removeA_ne "exp" "aud" (by decide), lookupA_removeA_ne "iat" "aud" (by decide),
        lookupA_removeA_ne "extras" "aud" (by decide), filter_nonfield_removeA_aud]
    cases lookupA "exp" q with
    | none => rfl
    | some v =>
      cases v with
      | str s2 => rfl
      | dt d2 => rfl
      | obj l2 => rfl
      | num e1 =>
        dsimp only
        cases lookupA "iat" q with
        | none => rfl
        | some w =>
          cases w with
          | str s2 => rfl
          | dt d2 => rfl
          | obj l2 => rfl
          | num i1 =>
            dsimp only
            cases lookupA "extras" q with
            | none => exact convertAndValidate_removeA_aud q _ _ _ nowUs localOff s haud
            | some x =>
              cases x with
              | obj l2 => exact convertAndValidate_removeA_aud q _ _ _ nowUs localOff s haud
              | str s3 =>
                dsimp only
                split_ifs with hE
                · exact convertAndValidate_removeA_aud q _ _ _ nowUs localOff s haud
                · rfl
              | num n3 =>
                dsimp only
                split_ifs with hE
                · exact convertAndValidate_removeA_aud q _ _ _ nowUs localOff s haud
                · rfl
              | dt d3 =>
                dsimp only
                split_ifs with hE
                · exact convertAndValidate_removeA_aud q _ _ _ nowUs localOff s haud
                · rfl

/-- C6: when the caller supplies no (or an empty) audience set, audience
verification is skipped entirely: decoding a token whose payload carries a
string `aud` claim gives exactly the outcome of decoding the same token
with the `aud` claim removed, except that the `aud` value is recorded on
the resulting token — in particular decode succeeds whenever all other
checks pass, despite the presence of the audience claim. -/
theorem claim_C6 (tok : EncodedToken) (secret algorithm : String)
    (audience issuer : Option (List String)) (nowUs localOff : Int) (s : String)
    (haud : lookupA "aud" tok.payload = some (PyVal.str s))
    (hskip : audTruthy audience = false) :
    Token.decode tok secret algorithm audience issuer nowUs localOff
      = Except.map (fun u : Token => { u with aud := some s })
          (Token.decode ⟨removeA "aud" tok.payload, tok.key, tok.alg⟩ secret algorithm
            audience issuer nowUs localOff) := by
  unfold Token.decode
  rw [decodeTry_removeA_aud tok secret algorithm audience issuer nowUs localOff s haud hskip]
  cases decodeTry ⟨removeA "aud" tok.payload, tok.key, tok.alg⟩ secret algorithm
      audience issuer nowUs localOff with
  | ok t => rfl
  | error e => cases e <;> rfl

/-- C6, witness: a token with `aud = "foo"`, decoded with no audience
argument. -/
theorem claim_C6_witness :
    lookupA "aud" (⟨[("exp", PyVal.num 1700003600), ("iat", PyVal.num 1700000000),
        ("sub", PyVal.str "u"), ("aud", PyVal.str "foo")], "k", "HS256"⟩ :
          EncodedToken).payload = some (PyVal.str "foo") ∧
    audTruthy none = false ∧
    Token.decode ⟨[("exp", PyVal.num 1700003600), ("iat", PyVal.num 1700000000),
        ("sub", PyVal.str "u"), ("aud", PyVal.str "foo")], "k", "HS256"⟩
        "k" "HS256" none none 1700000500123456 0
      = Except.map (fun u : Token => { u with aud := some "foo" })
          (Token.decode ⟨removeA "aud" [("exp", PyVal.num 1700003600),
              ("iat", PyVal.num 1700000000), ("sub", PyVal.str "u"),
              ("aud", PyVal.str "foo")], "k", "HS256"⟩
            "k" "HS256" none none 1700000500123456 0) :=
  ⟨rfl, rfl, claim_C6 ⟨[("exp", PyVal.num 1700003600), ("iat", PyVal.num 1700000000),
      ("sub", PyVal.str "u"), ("aud", PyVal.str "foo")], "k", "HS256"⟩
      "k" "HS256" none none 1700000500123456 0 "foo" rfl rfl⟩
